import Mathlib

/-!
# Verification of the quiz attempt reconciliation service

Shallow embedding of `src/addons/mod/quiz/services/quiz-sync.ts`
(`AddonModQuizSyncProvider`): the data model, the per-slot validation
(`validateQuestions`), the main reconciliation routine (`performSyncQuiz`
together with `finishSync`), the batch driver (`syncAllQuizzesFunc`), the
single-flight entry point (`syncQuiz`) and the post-update prefetch decision
(`prefetchAfterUpdateQuiz`).

External collaborators (remote quiz API, offline store primitives, question
delegate, network oracle, lock and in-flight registries) are not part of the
source fragment; they are modelled as explicit parameters of a `SyncEnv`
environment and an `OfflineStore` state, and every externally visible side
effect of the service is recorded in a `SyncEffects` trace.
-/

namespace AddonModQuizSync

/-- Attempt states. Modelled from the spec: "state (one of: in-progress,
overdue, finished, abandoned — exact enumeration external)". -/
inductive AttemptState
  | inProgress
  | overdue
  | finished
  | abandoned
deriving DecidableEq, Repr

/-- Modelled from the spec: `AddonModQuiz.isAttemptFinished` is external code;
the spec calls a state "finished" when the attempt can no longer be continued
(finished or abandoned). -/
def isAttemptFinished : AttemptState → Bool
  | .finished => true
  | .abandoned => true
  | _ => false

/-- Online attempt data (`AddonModQuizAttemptWSData`): the fields the sync
service reads are the identifier and the state. -/
structure AddonModQuizAttemptWSData where
  id : Nat
  state : AttemptState
deriving DecidableEq, Repr

/-- Offline attempt record (`AddonModQuizAttemptDBRecord`): the fields the sync
service reads are the identifier, the owning quiz and course, the finished
flag and the current page. -/
structure AddonModQuizAttemptDBRecord where
  id : Nat
  quizid : Nat
  courseid : Nat
  finished : Bool
  currentpage : Nat
deriving DecidableEq, Repr

/-- One offline answer row. Modelled from the spec: the offline store keeps
answer rows for an attempt, each belonging to a question slot and carrying a
name/value pair (`AddonModQuizOffline.getAttemptAnswers`). -/
structure OfflineAnswer where
  slot : Nat
  name : String
  value : String
deriving DecidableEq, Repr

/-- The answers of one offline question: a name-to-value object, modelled as
an association list. The `":sequencecheck"` entry holds the stored
sequence-check token. -/
structure OfflineQuestion where
  answers : List (String × String)
deriving DecidableEq, Repr

/-- The special answer name holding the sequence-check token. -/
def seqCheckKey : String := ":sequencecheck"

/-- Read an answer by name (JS object indexing: `answers[name]`, which may be
`undefined`). -/
def OfflineQuestion.getAnswer (q : OfflineQuestion) (name : String) : Option String :=
  (q.answers.find? (fun p => p.1 == name)).map (fun p => p.2)

/-- Write an answer by name (JS object assignment: `answers[name] = v`). -/
def OfflineQuestion.setAnswer (q : OfflineQuestion) (name v : String) : OfflineQuestion :=
  if (q.answers.find? (fun p => p.1 == name)).isSome then
    ⟨q.answers.map (fun p => if p.1 == name then (p.1, v) else p)⟩
  else
    ⟨q.answers ++ [(name, v)]⟩

/-- Online question data (`CoreQuestionQuestionParsed`): the fields the sync
service reads are the slot and the sequence-check counter. -/
structure CoreQuestionQuestionParsed where
  slot : Nat
  sequencecheck : Nat
deriving DecidableEq, Repr

/-- Lookup of the online question for a slot (`onlineQuestions[slot]` on the
slot-indexed record returned by `getAllQuestionsData`). -/
def findOnlineQuestion (onlineQuestions : List CoreQuestionQuestionParsed) (slot : Nat) :
    Option CoreQuestionQuestionParsed :=
  onlineQuestions.find? (fun q => q.slot == slot)

/-- Insert one offline answer row into the slot-grouped collection, keeping
groups in order of first appearance. -/
def insertAnswer (qs : List (Nat × OfflineQuestion)) (a : OfflineAnswer) :
    List (Nat × OfflineQuestion) :=
  match qs with
  | [] => [(a.slot, ⟨[(a.name, a.value)]⟩)]
  | (s, q) :: rest =>
    if s = a.slot then (s, ⟨q.answers ++ [(a.name, a.value)]⟩) :: rest
    else (s, q) :: insertAnswer rest a

/-- Modelled from the spec: `AddonModQuizOffline.classifyAnswersInQuestions`
(external code) groups the offline answer rows by question slot. -/
def classifyAnswersInQuestions (rows : List OfflineAnswer) : List (Nat × OfflineQuestion) :=
  rows.foldl insertAnswer []

/-- Result of `validateQuestions`: the surviving offline questions (with the
sequence-check token overwritten by the online value), whether any offline
data was discarded (the boolean the source returns), and the slots whose
offline data was removed (the `removeQuestionAndAnswers` calls). -/
structure ValidateResult where
  surviving : List (Nat × OfflineQuestion)
  discarded : Bool
  removedSlots : List Nat
deriving DecidableEq, Repr

/-- `validateQuestions` (quiz-sync.ts, lines 436-474): for each offline slot,
look up the online question; if it is missing, or the delegate's sequence
check (`vsc`, external `CoreQuestionDelegate.validateSequenceCheck`) rejects
the stored token, remove the slot's offline data and drop it; otherwise keep
it and overwrite the stored token with the online `sequencecheck`. Returns
whether any data was discarded. -/
def validateQuestions (vsc : CoreQuestionQuestionParsed → Option String → Bool)
    (onlineQuestions : List CoreQuestionQuestionParsed) :
    List (Nat × OfflineQuestion) → ValidateResult
  | [] => ⟨[], false, []⟩
  | (slot, oq) :: rest =>
    let r := validateQuestions vsc onlineQuestions rest
    match findOnlineQuestion onlineQuestions slot with
    | some onq =>
      if vsc onq (oq.getAnswer seqCheckKey) then
        ⟨(slot, oq.setAnswer seqCheckKey (toString onq.sequencecheck)) :: r.surviving,
          r.discarded, r.removedSlots⟩
      else
        ⟨r.surviving, true, slot :: r.removedSlots⟩
    | none => ⟨r.surviving, true, slot :: r.removedSlots⟩

/-- Specification-side predicate: a slot is dropped by per-slot validation when
its online counterpart is absent, or present but rejected by the delegate's
sequence-check rule. -/
def slotDropped (vsc : CoreQuestionQuestionParsed → Option String → Bool)
    (onlineQuestions : List CoreQuestionQuestionParsed)
    (p : Nat × OfflineQuestion) : Bool :=
  match findOnlineQuestion onlineQuestions p.1 with
  | some onq => !vsc onq (p.2.getAnswer seqCheckKey)
  | none => true

/-- Specification-side transform: a surviving slot has its stored
sequence-check token overwritten with the online question's current value. -/
def overwriteToken (onlineQuestions : List CoreQuestionQuestionParsed)
    (p : Nat × OfflineQuestion) : Nat × OfflineQuestion :=
  match findOnlineQuestion onlineQuestions p.1 with
  | some onq => (p.1, p.2.setAnswer seqCheckKey (toString onq.sequencecheck))
  | none => p

/-- Quiz reference data (`AddonModQuizQuizWSData`): the sync service reads the
identifier, the course and the course-module identifier. -/
structure AddonModQuizQuizWSData where
  id : Nat
  course : Nat
  coursemodule : Nat
deriving DecidableEq, Repr

/-- Sync result (`AddonModQuizSyncResult`): warnings, whether the online
attempt was finished because of the sync, and whether offline data was sent
or removed. -/
structure AddonModQuizSyncResult where
  warnings : List String
  attemptFinished : Bool
  updated : Bool
deriving DecidableEq, Repr

/-- Errors thrown by the sync service: the "sync blocked" and
"cannot connect" `CoreError`s of the source, plus the failure of the external
quiz lookup used by the batch driver. -/
inductive SyncError
  | syncBlocked
  | cannotConnect
  | quizNotFound
deriving DecidableEq, Repr

/-- A `processAttempt` submission call: the online attempt it targets, the
answers sent, and the finish flag. -/
structure Submission where
  attemptId : Nat
  answers : List (String × String)
  finish : Bool
deriving DecidableEq, Repr

/-- Trace of the externally visible side effects of one sync run. -/
structure SyncEffects where
  /-- `AddonModQuizOffline.removeAttemptAndAnswers` calls (attempt ids). -/
  removedAttempts : List Nat
  /-- `AddonModQuizOffline.removeQuestionAndAnswers` calls (attempt id, slot). -/
  removedSlots : List (Nat × Nat)
  /-- `AddonModQuiz.processAttempt` calls. -/
  submissions : List Submission
  /-- `AddonModQuiz.logViewAttempt` calls (attempt id, page). -/
  pageViews : List (Nat × Nat)
  /-- `CoreQuestionDelegate.deleteOfflineData` calls (slots). -/
  deletedQuestionData : List Nat
  /-- `AddonModQuizPrefetchHandler.download` calls. -/
  downloads : Nat
deriving DecidableEq, Repr

/-- The empty effect trace. -/
def SyncEffects.empty : SyncEffects := ⟨[], [], [], [], [], 0⟩

/-- Modelled from the spec: the offline attempt store for one quiz on one
site — the attempt records (`getQuizAttempts`) and, per attempt identifier,
its stored answer rows (`getAttemptAnswers`). -/
structure OfflineStore where
  attempts : List AddonModQuizAttemptDBRecord
  answers : Nat → List OfflineAnswer

/-- Modelled from the spec: `AddonModQuizOffline.removeAttemptAndAnswers`
deletes the offline attempt record with the given identifier together with
all its stored answers. -/
def removeAttemptAndAnswers (st : OfflineStore) (attemptId : Nat) : OfflineStore :=
  ⟨st.attempts.filter (fun a => a.id ≠ attemptId),
    fun i => if i = attemptId then [] else st.answers i⟩

/-- Modelled from the spec: `AddonModQuizOffline.removeQuestionAndAnswers`
deletes the stored answers of one slot of one attempt. -/
def removeSlotAnswers (st : OfflineStore) (attemptId : Nat) (slots : List Nat) : OfflineStore :=
  ⟨st.attempts,
    fun i => if i = attemptId then (st.answers i).filter (fun a => a.slot ∉ slots)
      else st.answers i⟩

/-- Environment supplying the external collaborators of one sync run: the
network oracle, the two online attempt fetches, the online question data, the
question delegate, and the module-update check used by the prefetch step. -/
structure SyncEnv where
  /-- `CoreNetwork.isOnline()`. -/
  isOnline : Bool
  /-- `AddonModQuiz.getUserAttempts` at the start of the sync. -/
  onlineAttempts : List AddonModQuizAttemptWSData
  /-- `AddonModQuiz.getUserAttempts` re-fetch inside `finishSync`. -/
  attemptsAfter : List AddonModQuizAttemptWSData
  /-- `AddonModQuiz.getAllQuestionsData` result, one question per slot. -/
  onlineQuestions : List CoreQuestionQuestionParsed
  /-- `CoreQuestionDelegate.validateSequenceCheck`. -/
  validateSequenceCheck : CoreQuestionQuestionParsed → Option String → Bool
  /-- `CoreQuestionDelegate.prepareSyncData`: external rewrite of a slot's
  answers into submission-ready form. -/
  prepareSyncData : Nat → List (String × String) → List (String × String)
  /-- `CoreCourseModulePrefetchDelegate.getModuleUpdates` result: `none` for a
  null/undefined result, otherwise the names of the reported update entries. -/
  moduleUpdates : Option (List String)

/-- Modelled from the spec: `AddonModQuizOffline.extractAnswersFromQuestions`
flattens the surviving questions' answers into the list sent to the server. -/
def extractAnswersFromQuestions (qs : List (Nat × OfflineQuestion)) :
    List (String × String) :=
  qs.flatMap (fun p => p.2.answers)

/-- A JavaScript line terminator (`.` in a JS regex matches any other
character). -/
def isJsLineTerminator (c : Char) : Bool :=
  c = Char.ofNat 10 || c = Char.ofNat 13 || c = Char.ofNat 0x2028 || c = Char.ofNat 0x2029

/-- The characters of `s` end with the characters of `"files"`. -/
def endsWithFiles (s : String) : Bool :=
  List.isSuffixOf "files".data s.data

/-- Whether `name.match(/^.*files$/)` succeeds: with no flags, `^` and `$`
anchor to the whole string and `.` excludes line terminators, so the pattern
matches exactly the strings that contain no line terminator and end with
`"files"`. -/
def matchesAllFilesRegex (s : String) : Bool :=
  !(s.data.any isJsLineTerminator) && endsWithFiles s

/-- `prefetchAfterUpdateQuiz` (quiz-sync.ts, lines 145-173), reduced to its
download decision: with a non-empty update list, download exactly when no
update entry's name matches `/^.*files$/`. Returns whether
`AddonModQuizPrefetchHandler.download` is invoked. -/
def prefetchAfterUpdateQuiz (moduleUpdates : Option (List String)) : Bool :=
  match moduleUpdates with
  | some updates =>
    if updates.length ≠ 0 then !(updates.any matchesAllFilesRegex) else false
  | none => false

/-- Options passed to `finishSync` (`FinishSyncOptions`). -/
structure FinishSyncOptions where
  attemptId : Option Nat
  onlineAttempt : Option AddonModQuizAttemptWSData
  removeAttempt : Bool
  updated : Bool
  onlineQuestionSlots : List Nat
deriving Repr

/-- `finishSync` (quiz-sync.ts, lines 59-117): remove the offline data of
`options.attemptId` when requested (the JS guard `options.removeAttempt &&
options.attemptId` is falsy for identifier 0), run the post-update prefetch
when data was sent, re-check whether the online attempt became finished, and
build the result with `updated = !!options.updated || !!options.removeAttempt`. -/
def finishSync (env : SyncEnv) (warnings : List String) (opts : FinishSyncOptions)
    (st : OfflineStore) (eff : SyncEffects) :
    AddonModQuizSyncResult × OfflineStore × SyncEffects :=
  let removing := opts.removeAttempt &&
    (match opts.attemptId with
     | some a => a != 0
     | none => false)
  let st' :=
    match removing, opts.attemptId with
    | true, some a => removeAttemptAndAnswers st a
    | _, _ => st
  let eff' :=
    match removing, opts.attemptId with
    | true, some a =>
      { eff with
        removedAttempts := eff.removedAttempts ++ [a]
        deletedQuestionData := eff.deletedQuestionData ++ opts.onlineQuestionSlots }
    | _, _ => eff
  let eff'' :=
    if opts.updated && prefetchAfterUpdateQuiz env.moduleUpdates then
      { eff' with downloads := eff'.downloads + 1 }
    else eff'
  let attemptFinished :=
    match opts.onlineAttempt with
    | some oa =>
      if isAttemptFinished oa.state then false
      else
        match env.attemptsAfter.find? (fun a => a.id == oa.id) with
        | some a => isAttemptFinished a.state
        | none => false
    | none => false
  (⟨warnings, attemptFinished, opts.updated || opts.removeAttempt⟩, st', eff'')

/-- Outcome of one `performSyncQuiz` run: the resolved result or the thrown
error, the offline store afterwards, and the effect trace. -/
structure SyncOutcome where
  result : Except SyncError AddonModQuizSyncResult
  store : OfflineStore
  effects : SyncEffects

/-- Package a `finishSync` return value as a resolved sync outcome. -/
def okOutcome (x : AddonModQuizSyncResult × OfflineStore × SyncEffects) : SyncOutcome :=
  ⟨.ok x.1, x.2.1, x.2.2⟩

/-- Warning text keys (`Translate.instant` is modelled by the key itself). -/
def warningAttemptFinished : String := "addon.mod_quiz.warningattemptfinished"

/-- Warning shown when data of a finished offline attempt is discarded. -/
def warningDataDiscardedFromFinished : String := "addon.mod_quiz.warningdatadiscardedfromfinished"

/-- Warning shown when data of an unfinished offline attempt is discarded. -/
def warningDataDiscarded : String := "addon.mod_quiz.warningdatadiscarded"

/-- The submission path of `performSyncQuiz` (quiz-sync.ts, lines 338-425),
reached when an unfinished matching online attempt exists and offline answers
are stored: classify the answers by slot, validate them per slot, let the
delegate prepare the surviving answers, submit them with
`finish = offline finished && no data discarded` (recording the discard
warning), replay the page when not finishing, and finalize removing the
offline data of the LAST online attempt while reporting an update. -/
def submitAnswersBranch (env : SyncEnv) (st : OfflineStore)
    (offlineAttempt : AddonModQuizAttemptDBRecord)
    (onlineAttempt : AddonModQuizAttemptWSData) : SyncOutcome :=
  let lastAttemptId := (env.onlineAttempts.getLast?).map (fun a => a.id)
  let answersList := st.answers offlineAttempt.id
  let offlineQuestions := classifyAnswersInQuestions answersList
  let r := validateQuestions env.validateSequenceCheck env.onlineQuestions offlineQuestions
  let st₁ := removeSlotAnswers st onlineAttempt.id r.removedSlots
  let eff₁ : SyncEffects :=
    { SyncEffects.empty with
      removedSlots := r.removedSlots.map (fun s => (onlineAttempt.id, s)) }
  let prepared := r.surviving.map
    (fun p => (p.1, OfflineQuestion.mk (env.prepareSyncData p.1 p.2.answers)))
  let answers := extractAnswersFromQuestions prepared
  let finish := offlineAttempt.finished && !r.discarded
  let warnings :=
    if r.discarded then
      [if offlineAttempt.finished then warningDataDiscardedFromFinished
       else warningDataDiscarded]
    else []
  let eff₂ := { eff₁ with submissions := [⟨onlineAttempt.id, answers, finish⟩] }
  let eff₃ :=
    if !finish then
      { eff₂ with pageViews := [(onlineAttempt.id, offlineAttempt.currentpage)] }
    else eff₂
  okOutcome (finishSync env warnings
    ⟨lastAttemptId, some onlineAttempt, true, true,
      env.onlineQuestions.map (fun q => q.slot)⟩ st₁ eff₃)

/-- `performSyncQuiz` (quiz-sync.ts, lines 288-425): the reconciliation
algorithm. Takes the last stored offline attempt; with none, finalizes with no
changes. Requires the network. Fetches the online attempts; with no matching
unfinished online attempt, warns and discards the offline attempt. With no
stored answers, finalizes removing the data of the LAST online attempt.
Otherwise validates per slot, submits the surviving answers with
`finish = offline finished && no data discarded`, replays the page when not
finishing, and finalizes removing the data of the LAST online attempt. -/
def performSyncQuiz (env : SyncEnv) (st : OfflineStore) : SyncOutcome :=
  match st.attempts.getLast? with
  | none => okOutcome (finishSync env [] ⟨none, none, false, false, []⟩ st .empty)
  | some offlineAttempt =>
    if !env.isOnline then ⟨.error .cannotConnect, st, .empty⟩
    else
      let lastAttemptId := (env.onlineAttempts.getLast?).map (fun a => a.id)
      let onlineAttempt? := env.onlineAttempts.find? (fun a => a.id == offlineAttempt.id)
      match onlineAttempt? with
      | none =>
        okOutcome (finishSync env [warningAttemptFinished]
          ⟨some offlineAttempt.id, none, true, false, []⟩ st .empty)
      | some onlineAttempt =>
        if isAttemptFinished onlineAttempt.state then
          okOutcome (finishSync env [warningAttemptFinished]
            ⟨some offlineAttempt.id, some onlineAttempt, true, false, []⟩ st .empty)
        else
          let answersList := st.answers offlineAttempt.id
          if answersList.isEmpty then
            okOutcome (finishSync env []
              ⟨lastAttemptId, some onlineAttempt, true, false, []⟩ st .empty)
          else submitAnswersBranch env st offlineAttempt onlineAttempt

/-- Modelled from the spec: the in-flight registry of the base sync class
(`getOngoingSync` / `addOngoingSync`, external code) for one (quiz, site)
pair — the handle of the in-flight sync promise, a counter producing fresh
handles, and the number of reconciliations actually started. -/
structure SyncScheduler where
  ongoing : Option Nat
  nextHandle : Nat
  started : Nat
deriving DecidableEq, Repr

/-- `syncQuiz` (quiz-sync.ts, lines 261-278): when a sync for this
(quiz, site) pair is already ongoing, return the same in-flight promise —
before and therefore regardless of the lock check; otherwise fail when the
pair is lock-blocked; otherwise start `performSyncQuiz` and register it as
the ongoing sync. -/
def syncQuizEntry (blocked : Bool) (s : SyncScheduler) :
    Except SyncError Nat × SyncScheduler :=
  match s.ongoing with
  | some h => (.ok h, s)
  | none =>
    if blocked then (.error .syncBlocked, s)
    else (.ok s.nextHandle, ⟨some s.nextHandle, s.nextHandle + 1, s.started + 1⟩)

/-- Everything the batch driver needs about one quiz on the site: the quiz
record (`getQuizById`), the lock state (`CoreSync.isBlocked`), the staleness
check (`isSyncNeeded`), and the quiz's sync environment and offline store. -/
structure QuizContext where
  quiz : AddonModQuizQuizWSData
  blocked : Bool
  needed : Bool
  env : SyncEnv
  store : OfflineStore

/-- `syncQuiz` for a quiz with no ongoing sync (each quiz is treated at most
once inside the batch): the lock check, then `performSyncQuiz`. -/
def syncQuizRun (c : QuizContext) : SyncOutcome :=
  if c.blocked then ⟨.error .syncBlocked, c.store, .empty⟩
  else performSyncQuiz c.env c.store

/-- Payload of the `AUTO_SYNCED` event (`AddonModQuizAutoSyncData`). -/
structure AutoSyncEvent where
  quizId : Nat
  attemptFinished : Bool
  warnings : List String
deriving DecidableEq, Repr

/-- Keep the first offline attempt row of each quiz, carrying the set of
already-treated quiz identifiers: the `quizIds` record in
`syncAllQuizzesFunc` makes every later row of an already-treated quiz
return early. -/
def dedupByQuizAux (seen : List Nat) :
    List AddonModQuizAttemptDBRecord → List AddonModQuizAttemptDBRecord
  | [] => []
  | r :: rest =>
    if r.quizid ∈ seen then dedupByQuizAux seen rest
    else r :: dedupByQuizAux (r.quizid :: seen) rest

/-- The offline attempt rows actually treated by the batch: the first row of
each quiz. -/
def dedupByQuiz (rows : List AddonModQuizAttemptDBRecord) :
    List AddonModQuizAttemptDBRecord :=
  dedupByQuizAux [] rows

/-- Contribution of one quiz's async closure to the batch run, given its
context: the warnings persisted (`setSyncWarnings`), the `AUTO_SYNCED` events
emitted, and the rejections of the closure. -/
def ctxStep (force : Bool) (c : QuizContext) :
    List (Nat × List String) × List AutoSyncEvent × List SyncError :=
  if c.blocked then ([], [], [])
  else
    let data? : Option SyncOutcome :=
      if force then some (syncQuizRun c)
      else if c.needed then some (syncQuizRun c) else none
    match data? with
    | none => ([], [], [])
    | some out =>
      match out.result with
      | .error e => ([], [], [e])
      | .ok data =>
        ((if data.warnings.isEmpty then [] else [(c.quiz.id, data.warnings)]),
          [⟨c.quiz.id, data.attemptFinished, data.warnings⟩], [])

/-- Contribution of one deduplicated offline attempt row to the batch run:
look up the quiz's context (`getQuizById`; its failure rejects the closure)
and run the per-quiz closure. -/
def batchStep (force : Bool) (ctxs : List QuizContext)
    (row : AddonModQuizAttemptDBRecord) :
    List (Nat × List String) × List AutoSyncEvent × List SyncError :=
  match ctxs.find? (fun c => c.quiz.id == row.quizid) with
  | none => ([], [], [.quizNotFound])
  | some c => ctxStep force c

/-- What one batch run produced. -/
structure BatchOutcome where
  persistedWarnings : List (Nat × List String)
  events : List AutoSyncEvent
  failures : List SyncError
deriving DecidableEq, Repr

/-- `syncAllQuizzesFunc` (quiz-sync.ts, lines 193-230): enumerate every
offline attempt on the site (`getAllAttempts`), treat each quiz exactly once,
skip lock-blocked quizzes, sync each remaining quiz — unconditionally when
`force`, otherwise only when the staleness check says so — record nothing
for skipped quizzes, and for each successful sync persist its non-empty
warnings and emit its `AUTO_SYNCED` event. The per-quiz closures run
independently under `Promise.all`: one row's contribution does not depend on
the other rows' outcomes, and `failures` collects the closure rejections. -/
def syncAllQuizzesFunc (force : Bool) (ctxs : List QuizContext) : BatchOutcome :=
  let rows := dedupByQuiz (ctxs.flatMap (fun c => c.store.attempts))
  ⟨rows.flatMap (fun r => (batchStep force ctxs r).1),
    rows.flatMap (fun r => (batchStep force ctxs r).2.1),
    rows.flatMap (fun r => (batchStep force ctxs r).2.2)⟩

/-- The promise returned by the batch: `Promise.all` rejects with the first
per-quiz rejection when one exists, and resolves otherwise. -/
def batchResult (b : BatchOutcome) : Except SyncError Unit :=
  match b.failures with
  | [] => .ok ()
  | e :: _ => .error e

/-- Concrete sample delegate: the sequence check accepts exactly when the
stored token is the decimal rendering of the online counter. -/
def sampleVsc (onq : CoreQuestionQuestionParsed) (tok : Option String) : Bool :=
  tok == some (toString onq.sequencecheck)

/-- Sample offline attempt: id 7, quiz 3, course 11, marked finished, page 2. -/
def sampleAttempt : AddonModQuizAttemptDBRecord := ⟨7, 3, 11, true, 2⟩

/-- Sample store: exactly the offline attempt `sampleAttempt`, with answers
stored in slots 1 and 2. -/
def sampleStore : OfflineStore :=
  ⟨[sampleAttempt],
    fun i =>
      if i = 7 then
        [⟨1, ":sequencecheck", "3"⟩, ⟨1, "answer", "A"⟩,
          ⟨2, ":sequencecheck", "5"⟩, ⟨2, "answer", "B"⟩]
      else []⟩

/-- Sample environment: network up, the offline attempt is the last online
attempt and still in progress; slot 1's stored token matches the online
counter, slot 2's online counter has moved on. -/
def sampleEnv : SyncEnv :=
  ⟨true,
    [⟨6, .finished⟩, ⟨7, .inProgress⟩],
    [⟨6, .finished⟩, ⟨7, .finished⟩],
    [⟨1, 3⟩, ⟨2, 6⟩],
    sampleVsc,
    fun _ ans => ans,
    none⟩

/-- Variant environment where the online copy of the offline attempt is
already finished. -/
def sampleEnvFinishedOnline : SyncEnv :=
  ⟨true,
    [⟨6, .finished⟩, ⟨7, .finished⟩],
    [⟨6, .finished⟩, ⟨7, .finished⟩],
    [⟨1, 3⟩, ⟨2, 6⟩],
    sampleVsc,
    fun _ ans => ans,
    none⟩

/-- Variant environment with no network. -/
def sampleEnvOffline : SyncEnv :=
  ⟨false, [], [], [], sampleVsc, fun _ ans => ans, none⟩

/-- Variant environment where every stored token passes the sequence check. -/
def sampleEnvAllValid : SyncEnv :=
  ⟨true,
    [⟨6, .finished⟩, ⟨7, .inProgress⟩],
    [⟨6, .finished⟩, ⟨7, .finished⟩],
    [⟨1, 3⟩, ⟨2, 5⟩],
    sampleVsc,
    fun _ ans => ans,
    none⟩

/-- The empty offline store. -/
def emptyStore : OfflineStore := ⟨[], fun _ => []⟩

/-- Variant environment where a newer online attempt (id 9) exists after the
one matching the offline attempt (id 7). -/
def sampleEnvLaterAttempt : SyncEnv :=
  ⟨true,
    [⟨7, .inProgress⟩, ⟨9, .inProgress⟩],
    [⟨7, .finished⟩, ⟨9, .inProgress⟩],
    [⟨1, 3⟩, ⟨2, 6⟩],
    sampleVsc,
    fun _ ans => ans,
    none⟩

/-- Variant environment reporting one non-file module update after the sync. -/
def sampleEnvWithUpdates : SyncEnv :=
  ⟨true,
    [⟨6, .finished⟩, ⟨7, .inProgress⟩],
    [⟨6, .finished⟩, ⟨7, .finished⟩],
    [⟨1, 3⟩, ⟨2, 5⟩],
    sampleVsc,
    fun _ ans => ans,
    some ["questions"]⟩

/-- Variant environment reporting one update entry whose name ends in
`"files"` but contains a newline, so the anchored JS pattern `^.*files$`
does not match it. -/
def sampleEnvNewlineFiles : SyncEnv :=
  ⟨true,
    [⟨6, .finished⟩, ⟨7, .inProgress⟩],
    [⟨6, .finished⟩, ⟨7, .finished⟩],
    [⟨1, 3⟩, ⟨2, 5⟩],
    sampleVsc,
    fun _ ans => ans,
    some ["a\nfiles"]⟩

/-- Offline store of a second quiz (quiz 4): one finished offline attempt
(id 7) with one stored answer. -/
def store4 : OfflineStore :=
  ⟨[⟨7, 4, 11, true, 2⟩],
    fun i => if i = 7 then [⟨1, ":sequencecheck", "3"⟩, ⟨1, "answer", "A"⟩] else []⟩

/-- Batch context of quiz 3, whose sync fails with "cannot connect". -/
def ctxFail : QuizContext := ⟨⟨3, 11, 31⟩, false, true, sampleEnvOffline, sampleStore⟩

/-- Batch context of quiz 4, whose sync succeeds with one discard warning
(its online attempt is already finished). -/
def ctxOk : QuizContext := ⟨⟨4, 11, 41⟩, false, true, sampleEnvFinishedOnline, store4⟩

end AddonModQuizSync

namespace AddonModQuizSync

/-- `finishSync` returns exactly the warnings it was given. -/
theorem finishSync_warnings (env : SyncEnv) (w : List String) (opts : FinishSyncOptions)
    (st : OfflineStore) (eff : SyncEffects) :
    (finishSync env w opts st eff).1.warnings = w := rfl

/-- `finishSync` reports an update exactly when data was sent or removed. -/
theorem finishSync_updated (env : SyncEnv) (w : List String) (opts : FinishSyncOptions)
    (st : OfflineStore) (eff : SyncEffects) :
    (finishSync env w opts st eff).1.updated = (opts.updated || opts.removeAttempt) := rfl

/-- `finishSync` performs no submission of its own. -/
theorem finishSync_submissions (env : SyncEnv) (w : List String) (opts : FinishSyncOptions)
    (st : OfflineStore) (eff : SyncEffects) :
    ((finishSync env w opts st eff).2.2).submissions = eff.submissions := by
  simp only [finishSync]
  rcases opts with ⟨aid, onA, rm, upd, slots⟩
  cases aid with
  | none => cases rm <;> dsimp <;> split <;> rfl
  | some a =>
    cases rm <;> dsimp
    · split <;> rfl
    · rcases hz : (a != 0) <;> simp only [Bool.true_and, hz] <;> split <;> rfl

/-- Without a removal request, `finishSync` leaves the offline store alone. -/
theorem finishSync_store_noremove (env : SyncEnv) (w : List String)
    (opts : FinishSyncOptions) (st : OfflineStore) (eff : SyncEffects)
    (h : opts.removeAttempt = false) :
    (finishSync env w opts st eff).2.1 = st := by
  simp only [finishSync, h]
  cases opts.attemptId <;> rfl

/-- Without a removal request or an update, `finishSync` has no effects. -/
theorem finishSync_effects_noremove (env : SyncEnv) (w : List String)
    (opts : FinishSyncOptions) (st : OfflineStore) (eff : SyncEffects)
    (h : opts.removeAttempt = false) (h2 : opts.updated = false) :
    (finishSync env w opts st eff).2.2 = eff := by
  simp only [finishSync, h, h2]
  cases opts.attemptId <;> rfl

/-- With a removal request for a non-zero attempt identifier, `finishSync`
removes that attempt's offline record and answers and records the removal. -/
theorem finishSync_remove (env : SyncEnv) (w : List String)
    (opts : FinishSyncOptions) (st : OfflineStore) (eff : SyncEffects) (a : Nat)
    (h : opts.removeAttempt = true) (ha : opts.attemptId = some a) (h0 : a ≠ 0) :
    (finishSync env w opts st eff).2.1 = removeAttemptAndAnswers st a
      ∧ ((finishSync env w opts st eff).2.2).removedAttempts
        = eff.removedAttempts ++ [a] := by
  have hb : (a != 0) = true := by simpa using h0
  simp only [finishSync, h, ha, hb, Bool.true_and]
  constructor
  · trivial
  · dsimp
    split <;> rfl

/-- `finishSync` triggers the automatic re-download exactly when data was sent
and the update check allows it. -/
theorem finishSync_downloads (env : SyncEnv) (w : List String)
    (opts : FinishSyncOptions) (st : OfflineStore) (eff : SyncEffects) :
    ((finishSync env w opts st eff).2.2).downloads
      = eff.downloads
        + (if opts.updated && prefetchAfterUpdateQuiz env.moduleUpdates then 1 else 0) := by
  simp only [finishSync]
  rcases opts with ⟨aid, onA, rm, upd, slots⟩
  cases aid with
  | none => cases rm <;> dsimp <;> split <;> simp
  | some a =>
    cases rm <;> dsimp
    · split <;> simp
    · rcases hz : (a != 0) <;> simp only [Bool.true_and, hz] <;> split <;> simp

/-- C2: per-slot validation drops exactly the slots whose online question is
absent or whose sequence check fails (removing their offline data), keeps the
rest with the token overwritten by the online value, and reports a discard
exactly when at least one slot was dropped. -/
theorem validateQuestions_characterization
    (vsc : CoreQuestionQuestionParsed → Option String → Bool)
    (onlineQuestions : List CoreQuestionQuestionParsed)
    (qs : List (Nat × OfflineQuestion)) :
    (validateQuestions vsc onlineQuestions qs).removedSlots
        = (qs.filter (slotDropped vsc onlineQuestions)).map Prod.fst
      ∧ (validateQuestions vsc onlineQuestions qs).surviving
        = (qs.filter (fun p => !slotDropped vsc onlineQuestions p)).map
            (overwriteToken onlineQuestions)
      ∧ ((validateQuestions vsc onlineQuestions qs).discarded = true
          ↔ ∃ p ∈ qs, slotDropped vsc onlineQuestions p = true) := by
  induction qs with
  | nil => simp [validateQuestions]
  | cons hd tl ih =>
    obtain ⟨ih₁, ih₂, ih₃⟩ := ih
    obtain ⟨slot, oq⟩ := hd
    simp only [validateQuestions]
    cases hfind : findOnlineQuestion onlineQuestions slot with
    | none =>
      refine ⟨?_, ?_, ?_⟩
      · simp [slotDropped, hfind, ih₁]
      · simp [slotDropped, hfind, ih₂]
      · simp [slotDropped, hfind]
    | some onq =>
      by_cases hv : vsc onq (oq.getAnswer seqCheckKey) = true
      · refine ⟨?_, ?_, ?_⟩
        · simp [slotDropped, hfind, hv, ih₁]
        · simp [slotDropped, overwriteToken, hfind, hv, ih₂]
        · simp [slotDropped, hfind, hv, ih₃]
      · rw [Bool.not_eq_true] at hv
        refine ⟨?_, ?_, ?_⟩
        · simp [slotDropped, hfind, hv, ih₁]
        · simp [slotDropped, hfind, hv, ih₂]
        · simp [slotDropped, hfind, hv]

end AddonModQuizSync

namespace AddonModQuizSync

/-- Branch equation: with no offline attempt stored, `performSyncQuiz`
finalizes immediately with no warnings and no changes. -/
theorem performSyncQuiz_none (env : SyncEnv) (st : OfflineStore)
    (h : st.attempts.getLast? = none) :
    performSyncQuiz env st
      = okOutcome (finishSync env [] ⟨none, none, false, false, []⟩ st .empty) := by
  simp only [performSyncQuiz, h]

/-- Branch equation: with an offline attempt but no network, `performSyncQuiz`
throws "cannot connect" without touching anything. -/
theorem performSyncQuiz_offline (env : SyncEnv) (st : OfflineStore)
    (oa : AddonModQuizAttemptDBRecord)
    (h : st.attempts.getLast? = some oa) (hnet : env.isOnline = false) :
    performSyncQuiz env st = ⟨.error .cannotConnect, st, .empty⟩ := by
  simp [performSyncQuiz, h, hnet]

/-- Branch equation: no online attempt shares the offline attempt's
identifier, so the offline attempt is discarded with one warning. -/
theorem performSyncQuiz_noMatch (env : SyncEnv) (st : OfflineStore)
    (oa : AddonModQuizAttemptDBRecord)
    (h : st.attempts.getLast? = some oa) (hnet : env.isOnline = true)
    (hfind : env.onlineAttempts.find? (fun a => a.id == oa.id) = none) :
    performSyncQuiz env st
      = okOutcome (finishSync env [warningAttemptFinished]
          ⟨some oa.id, none, true, false, []⟩ st .empty) := by
  simp [performSyncQuiz, h, hnet, hfind]

/-- Branch equation: the matching online attempt is already finished, so the
offline attempt is discarded with one warning. -/
theorem performSyncQuiz_finishedOnline (env : SyncEnv) (st : OfflineStore)
    (oa : AddonModQuizAttemptDBRecord) (onA : AddonModQuizAttemptWSData)
    (h : st.attempts.getLast? = some oa) (hnet : env.isOnline = true)
    (hfind : env.onlineAttempts.find? (fun a => a.id == oa.id) = some onA)
    (hfin : isAttemptFinished onA.state = true) :
    performSyncQuiz env st
      = okOutcome (finishSync env [warningAttemptFinished]
          ⟨some oa.id, some onA, true, false, []⟩ st .empty) := by
  simp [performSyncQuiz, h, hnet, hfind, hfin]

/-- Branch equation: a matching unfinished online attempt exists but no
offline answers are stored; finalize removing the data of the last online
attempt, with no warnings. -/
theorem performSyncQuiz_emptyAnswers (env : SyncEnv) (st : OfflineStore)
    (oa : AddonModQuizAttemptDBRecord) (onA : AddonModQuizAttemptWSData)
    (h : st.attempts.getLast? = some oa) (hnet : env.isOnline = true)
    (hfind : env.onlineAttempts.find? (fun a => a.id == oa.id) = some onA)
    (hfin : isAttemptFinished onA.state = false)
    (hans : (st.answers oa.id).isEmpty = true) :
    performSyncQuiz env st
      = okOutcome (finishSync env []
          ⟨(env.onlineAttempts.getLast?).map (fun a => a.id), some onA, true, false, []⟩
          st .empty) := by
  simp [performSyncQuiz, h, hnet, hfind, hfin, hans]

/-- Branch equation: a matching unfinished online attempt exists and offline
answers are stored; the sync proceeds to the submission path. -/
theorem performSyncQuiz_submit (env : SyncEnv) (st : OfflineStore)
    (oa : AddonModQuizAttemptDBRecord) (onA : AddonModQuizAttemptWSData)
    (h : st.attempts.getLast? = some oa) (hnet : env.isOnline = true)
    (hfind : env.onlineAttempts.find? (fun a => a.id == oa.id) = some onA)
    (hfin : isAttemptFinished onA.state = false)
    (hans : (st.answers oa.id).isEmpty = false) :
    performSyncQuiz env st = submitAnswersBranch env st oa onA := by
  simp [performSyncQuiz, h, hnet, hfind, hfin, hans]

end AddonModQuizSync

namespace AddonModQuizSync

/-- The submission path performs exactly one `processAttempt` call, targeting
the matched online attempt, whose finish flag is the conjunction of the
offline finished flag with "no data discarded". -/
theorem submitAnswersBranch_submissions (env : SyncEnv) (st : OfflineStore)
    (oa : AddonModQuizAttemptDBRecord) (onA : AddonModQuizAttemptWSData) :
    (submitAnswersBranch env st oa onA).effects.submissions
      = [⟨onA.id,
          extractAnswersFromQuestions
            ((validateQuestions env.validateSequenceCheck env.onlineQuestions
                (classifyAnswersInQuestions (st.answers oa.id))).surviving.map
              (fun p => (p.1, OfflineQuestion.mk (env.prepareSyncData p.1 p.2.answers)))),
          oa.finished
            && !(validateQuestions env.validateSequenceCheck env.onlineQuestions
                  (classifyAnswersInQuestions (st.answers oa.id))).discarded⟩] := by
  simp only [submitAnswersBranch, okOutcome]
  rw [finishSync_submissions]
  split <;> rfl

/-- C1: for every sync that reaches the submission step, the finish flag sent
to the remote system equals "the offline attempt was marked finished AND no
slot was discarded during per-slot validation"; in particular, when any slot
is discarded, the finish flag is false even if the offline attempt's finished
flag is set. -/
theorem sync_finish_flag_iff (env : SyncEnv) (st : OfflineStore)
    (oa : AddonModQuizAttemptDBRecord) (onA : AddonModQuizAttemptWSData)
    (hlast : st.attempts.getLast? = some oa) (hnet : env.isOnline = true)
    (hfind : env.onlineAttempts.find? (fun a => a.id == oa.id) = some onA)
    (hfin : isAttemptFinished onA.state = false)
    (hans : (st.answers oa.id).isEmpty = false) :
    ((performSyncQuiz env st).effects.submissions).map Submission.finish
        = [oa.finished
            && !(validateQuestions env.validateSequenceCheck env.onlineQuestions
                  (classifyAnswersInQuestions (st.answers oa.id))).discarded]
      ∧ ((validateQuestions env.validateSequenceCheck env.onlineQuestions
            (classifyAnswersInQuestions (st.answers oa.id))).discarded = true →
          ∀ sub ∈ (performSyncQuiz env st).effects.submissions, sub.finish = false) := by
  rw [performSyncQuiz_submit env st oa onA hlast hnet hfind hfin hans,
    submitAnswersBranch_submissions env st oa onA]
  refine ⟨rfl, fun hd sub hsub => ?_⟩
  simp only [List.mem_singleton] at hsub
  subst hsub
  simp [hd]

/-- C1 witness: on the sample data slot 2 fails the sequence check, so the
submission is sent with finish flag false although the offline attempt was
marked finished. -/
theorem sync_finish_flag_iff_witness :
    ((performSyncQuiz sampleEnv sampleStore).effects.submissions).map Submission.finish
      = [false] :=
  ((sync_finish_flag_iff sampleEnv sampleStore sampleAttempt ⟨7, .inProgress⟩
    (by decide) rfl (by decide) rfl (by decide)).1).trans (by decide)

end AddonModQuizSync

namespace AddonModQuizSync

/-- C3: when the offline attempt has no online counterpart, or its online
counterpart is already finished, the sync discards: it deletes the offline
attempt and its answers, performs no submission, and resolves with exactly one
warning and `updated = true`. -/
theorem sync_discard_branch_spec (env : SyncEnv) (st : OfflineStore)
    (oa : AddonModQuizAttemptDBRecord)
    (hlast : st.attempts.getLast? = some oa) (hnet : env.isOnline = true)
    (h0 : oa.id ≠ 0)
    (hdisc : env.onlineAttempts.find? (fun a => a.id == oa.id) = none
      ∨ ∃ onA, env.onlineAttempts.find? (fun a => a.id == oa.id) = some onA
          ∧ isAttemptFinished onA.state = true) :
    (performSyncQuiz env st).result = .ok ⟨[warningAttemptFinished], false, true⟩
      ∧ (performSyncQuiz env st).store = removeAttemptAndAnswers st oa.id
      ∧ (performSyncQuiz env st).effects.submissions = []
      ∧ (performSyncQuiz env st).effects.removedAttempts = [oa.id] := by
  have hb : (oa.id != 0) = true := by simpa using h0
  rcases hdisc with hfind | ⟨onA, hfind, hfin⟩
  · rw [performSyncQuiz_noMatch env st oa hlast hnet hfind]
    simp [okOutcome, finishSync, hb, SyncEffects.empty]
  · rw [performSyncQuiz_finishedOnline env st oa onA hlast hnet hfind hfin]
    simp [okOutcome, finishSync, hb, hfin, SyncEffects.empty]

/-- C3 witness: with the online copy of the sample offline attempt already
finished, the sync resolves with one warning, removes the attempt, and
submits nothing. -/
theorem sync_discard_branch_spec_witness :
    (performSyncQuiz sampleEnvFinishedOnline sampleStore).result
      = .ok ⟨[warningAttemptFinished], false, true⟩ :=
  (sync_discard_branch_spec sampleEnvFinishedOnline sampleStore sampleAttempt
    (by decide) rfl (by decide)
    (Or.inr ⟨⟨7, .finished⟩, by decide, rfl⟩)).1

/-- C4: with no offline attempt stored, the sync resolves with no warnings,
`updated = false`, an untouched store, and no effects at all. -/
theorem sync_nothing_to_do_spec (env : SyncEnv) (st : OfflineStore)
    (h : st.attempts = []) :
    (performSyncQuiz env st).result = .ok ⟨[], false, false⟩
      ∧ (performSyncQuiz env st).store = st
      ∧ (performSyncQuiz env st).effects = SyncEffects.empty := by
  have hl : st.attempts.getLast? = none := by rw [h]; rfl
  rw [performSyncQuiz_none env st hl]
  refine ⟨rfl, ?_, ?_⟩
  · exact finishSync_store_noremove env [] ⟨none, none, false, false, []⟩ st .empty rfl
  · exact finishSync_effects_noremove env [] ⟨none, none, false, false, []⟩ st .empty rfl rfl

/-- C4 witness: syncing with an empty offline store resolves with no warnings
and no update. -/
theorem sync_nothing_to_do_spec_witness :
    (performSyncQuiz sampleEnv emptyStore).result = .ok ⟨[], false, false⟩
      ∧ (performSyncQuiz sampleEnv emptyStore).effects = SyncEffects.empty := by
  have h := sync_nothing_to_do_spec sampleEnv emptyStore rfl
  exact ⟨h.1, h.2.2⟩

/-- C5: with an offline attempt present and the network unreachable, the sync
rejects with "cannot connect", leaving the offline store untouched and
producing no effect (no fetch result is consumed, nothing is submitted or
deleted). -/
theorem sync_offline_error_spec (env : SyncEnv) (st : OfflineStore)
    (oa : AddonModQuizAttemptDBRecord)
    (hlast : st.attempts.getLast? = some oa) (hnet : env.isOnline = false) :
    (performSyncQuiz env st).result = .error SyncError.cannotConnect
      ∧ (performSyncQuiz env st).store = st
      ∧ (performSyncQuiz env st).effects = SyncEffects.empty := by
  rw [performSyncQuiz_offline env st oa hlast hnet]
  exact ⟨rfl, rfl, rfl⟩

/-- C5 witness: the sample store synced without network rejects with
"cannot connect" and nothing is deleted. -/
theorem sync_offline_error_spec_witness :
    (performSyncQuiz sampleEnvOffline sampleStore).result
        = .error SyncError.cannotConnect
      ∧ (performSyncQuiz sampleEnvOffline sampleStore).store = sampleStore :=
  have h := sync_offline_error_spec sampleEnvOffline sampleStore sampleAttempt
    (by decide) rfl
  ⟨h.1, h.2.1⟩

end AddonModQuizSync

namespace AddonModQuizSync

/-- The last element of a list, when it exists, is a member. -/
theorem mem_of_getLast?_eq {α : Type} {l : List α} {a : α}
    (h : l.getLast? = some a) : a ∈ l := by
  obtain ⟨hne, heq⟩ := List.mem_getLast?_eq_getLast (Option.mem_def.2 h)
  rw [heq]
  exact List.getLast_mem hne

/-- In the submission path, finalization removes offline data under the
identifier of the LAST online attempt, leaving every offline attempt record
with a different identifier in place. -/
theorem submitAnswersBranch_removal (env : SyncEnv) (st : OfflineStore)
    (oa : AddonModQuizAttemptDBRecord) (onA : AddonModQuizAttemptWSData)
    (lastId : Nat)
    (hlastId : (env.onlineAttempts.getLast?).map (fun a => a.id) = some lastId)
    (hl0 : lastId ≠ 0) :
    (submitAnswersBranch env st oa onA).effects.removedAttempts = [lastId]
      ∧ (submitAnswersBranch env st oa onA).store.attempts
        = st.attempts.filter (fun a => a.id ≠ lastId) := by
  have hb : (lastId != 0) = true := by simpa using hl0
  refine ⟨?_, ?_⟩
  · simp only [submitAnswersBranch, okOutcome, hlastId, finishSync, hb, Bool.true_and]
    split <;> split <;> simp [SyncEffects.empty]
  · simp only [submitAnswersBranch, okOutcome, hlastId, finishSync, hb, Bool.true_and]
    rfl

end AddonModQuizSync

namespace AddonModQuizSync

/-- C10: in the empty-answer-set and successful-submission branches,
finalization removes offline data under the identifier of the LAST online
attempt (not the offline attempt's own identifier), so the synced offline
attempt's record is deleted exactly when it is the most recent online
attempt; only the discard branch removes offline data under the offline
attempt's own identifier. -/
theorem finalization_last_attempt_id (env : SyncEnv) (st : OfflineStore)
    (oa : AddonModQuizAttemptDBRecord)
    (hlast : st.attempts.getLast? = some oa) (hnet : env.isOnline = true) :
    (∀ onA lastId,
        env.onlineAttempts.find? (fun a => a.id == oa.id) = some onA →
        isAttemptFinished onA.state = false →
        (env.onlineAttempts.getLast?).map (fun a => a.id) = some lastId →
        lastId ≠ 0 →
        (performSyncQuiz env st).effects.removedAttempts = [lastId]
          ∧ (performSyncQuiz env st).store.attempts
            = st.attempts.filter (fun a => a.id ≠ lastId)
          ∧ (oa ∈ (performSyncQuiz env st).store.attempts ↔ oa.id ≠ lastId))
      ∧ ((env.onlineAttempts.find? (fun a => a.id == oa.id) = none
            ∨ ∃ onA, env.onlineAttempts.find? (fun a => a.id == oa.id) = some onA
                ∧ isAttemptFinished onA.state = true) →
          oa.id ≠ 0 →
          (performSyncQuiz env st).effects.removedAttempts = [oa.id]) := by
  constructor
  · intro onA lastId hfind hfin hlastId hl0
    have hb : (lastId != 0) = true := by simpa using hl0
    have hmem : oa ∈ st.attempts := mem_of_getLast?_eq hlast
    have hmain :
        (performSyncQuiz env st).effects.removedAttempts = [lastId]
          ∧ (performSyncQuiz env st).store.attempts
            = st.attempts.filter (fun a => a.id ≠ lastId) := by
      cases hans : (st.answers oa.id).isEmpty with
      | true =>
        rw [performSyncQuiz_emptyAnswers env st oa onA hlast hnet hfind hfin hans, hlastId]
        constructor
        · simp [okOutcome, finishSync, hb, SyncEffects.empty]
        · simp [okOutcome, finishSync, hb, removeAttemptAndAnswers]
      | false =>
        rw [performSyncQuiz_submit env st oa onA hlast hnet hfind hfin hans]
        exact submitAnswersBranch_removal env st oa onA lastId hlastId hl0
    refine ⟨hmain.1, hmain.2, ?_⟩
    rw [hmain.2]
    simp [List.mem_filter, hmem]
  · intro hdisc h0
    have hb : (oa.id != 0) = true := by simpa using h0
    rcases hdisc with hfind | ⟨onA, hfind, hfin⟩
    · rw [performSyncQuiz_noMatch env st oa hlast hnet hfind]
      simp [okOutcome, finishSync, hb, SyncEffects.empty]
    · rw [performSyncQuiz_finishedOnline env st oa onA hlast hnet hfind hfin]
      simp [okOutcome, finishSync, hb, SyncEffects.empty]

/-- C10 witness: with a newer online attempt (id 9) after the matched one
(id 7), the successful submission removes offline data under id 9 and the
offline attempt record of id 7 is left behind in the store. -/
theorem finalization_last_attempt_id_witness :
    (performSyncQuiz sampleEnvLaterAttempt sampleStore).effects.removedAttempts = [9]
      ∧ sampleAttempt ∈ (performSyncQuiz sampleEnvLaterAttempt sampleStore).store.attempts := by
  have h := (finalization_last_attempt_id sampleEnvLaterAttempt sampleStore sampleAttempt
    (by decide) rfl).1 ⟨7, .inProgress⟩ 9 (by decide) rfl (by decide) (by decide)
  exact ⟨h.1, (h.2.2).2 (by decide)⟩

end AddonModQuizSync

namespace AddonModQuizSync

/-- C8: single-flight — when a first call to `syncQuiz` has started a
reconciliation, a second call made before it completes (whatever the lock
state then) skips the lock check, returns the very same in-flight promise,
starts no second reconciliation, and leaves the registry unchanged. -/
theorem syncQuiz_single_flight (blocked₁ blocked₂ : Bool) (s : SyncScheduler)
    (h₁ : Nat) (hno : s.ongoing = none)
    (hok : (syncQuizEntry blocked₁ s).1 = .ok h₁) :
    (syncQuizEntry blocked₂ (syncQuizEntry blocked₁ s).2).1 = .ok h₁
      ∧ (syncQuizEntry blocked₂ (syncQuizEntry blocked₁ s).2).2
        = (syncQuizEntry blocked₁ s).2
      ∧ ((syncQuizEntry blocked₁ s).2).started = s.started + 1 := by
  cases blocked₁ with
  | true => simp [syncQuizEntry, hno] at hok
  | false =>
    simp only [syncQuizEntry, hno] at hok ⊢
    simp only [Bool.false_eq_true, if_false, Except.ok.injEq] at hok
    subst hok
    exact ⟨rfl, rfl, rfl⟩

/-- C8 witness: from an idle registry, a first (unblocked) call starts handle
0; a second call while it is in flight — even with the lock now taken —
receives the same handle and only one reconciliation was started. -/
theorem syncQuiz_single_flight_witness :
    (syncQuizEntry true (syncQuizEntry false ⟨none, 0, 0⟩).2).1 = .ok 0
      ∧ ((syncQuizEntry false ⟨none, 0, 0⟩).2).started = 0 + 1 := by
  have h := syncQuiz_single_flight false true ⟨none, 0, 0⟩ 0 rfl rfl
  exact ⟨h.1, h.2.2⟩

end AddonModQuizSync

namespace AddonModQuizSync

/-- The download decision on a reported update list: download exactly when the
list is non-empty and no entry's name matches the anchored `^.*files$`
pattern. -/
theorem prefetchAfterUpdateQuiz_some_iff (updates : List String) :
    prefetchAfterUpdateQuiz (some updates) = true
      ↔ updates ≠ [] ∧ ∀ name ∈ updates, matchesAllFilesRegex name = false := by
  by_cases h : updates = []
  · subst h
    simp [prefetchAfterUpdateQuiz]
  · have hlen : updates.length ≠ 0 := fun hc => h (List.length_eq_zero.mp hc)
    simp [prefetchAfterUpdateQuiz, hlen, h, List.any_eq_false]

/-- With a null or undefined update-check result there is no download. -/
theorem prefetchAfterUpdateQuiz_none :
    prefetchAfterUpdateQuiz none = false := rfl

/-- In the submission path, the re-download happens exactly when the update
check allows it. -/
theorem submitAnswersBranch_downloads (env : SyncEnv) (st : OfflineStore)
    (oa : AddonModQuizAttemptDBRecord) (onA : AddonModQuizAttemptWSData) :
    (submitAnswersBranch env st oa onA).effects.downloads
      = (if prefetchAfterUpdateQuiz env.moduleUpdates then 1 else 0) := by
  simp only [submitAnswersBranch, okOutcome]
  rw [finishSync_downloads]
  simp only [Bool.true_and]
  split <;> simp [SyncEffects.empty]

/-- C9 (amended): after a sync that transmitted data, the automatic
re-download happens iff the update check reports a non-empty update list none
of whose entry names matches the anchored JS pattern `^.*files$` (a
line-terminator-free name ending in `"files"`); otherwise no download
happens. -/
theorem sync_prefetch_download_decision (env : SyncEnv) (st : OfflineStore)
    (oa : AddonModQuizAttemptDBRecord) (onA : AddonModQuizAttemptWSData)
    (hlast : st.attempts.getLast? = some oa) (hnet : env.isOnline = true)
    (hfind : env.onlineAttempts.find? (fun a => a.id == oa.id) = some onA)
    (hfin : isAttemptFinished onA.state = false)
    (hans : (st.answers oa.id).isEmpty = false) :
    ((performSyncQuiz env st).effects.downloads = 1
        ↔ ∃ updates, env.moduleUpdates = some updates ∧ updates ≠ []
            ∧ ∀ name ∈ updates, matchesAllFilesRegex name = false)
      ∧ ((performSyncQuiz env st).effects.downloads = 1
          ∨ (performSyncQuiz env st).effects.downloads = 0) := by
  rw [performSyncQuiz_submit env st oa onA hlast hnet hfind hfin hans,
    submitAnswersBranch_downloads env st oa onA]
  have hif : ((if prefetchAfterUpdateQuiz env.moduleUpdates then (1 : Nat) else 0) = 1)
      ↔ prefetchAfterUpdateQuiz env.moduleUpdates = true := by
    cases hp : prefetchAfterUpdateQuiz env.moduleUpdates <;> simp [hp]
  constructor
  · rw [hif]
    cases hmu : env.moduleUpdates with
    | none =>
      rw [prefetchAfterUpdateQuiz_none]
      simp
    | some updates =>
      rw [prefetchAfterUpdateQuiz_some_iff updates]
      constructor
      · rintro ⟨hne, hall⟩
        exact ⟨updates, rfl, hne, hall⟩
      · rintro ⟨u, hu, hne, hall⟩
        rw [Option.some.injEq] at hu
        subst hu
        exact ⟨hne, hall⟩
  · cases hp : prefetchAfterUpdateQuiz env.moduleUpdates <;> simp [hp]

/-- C9 witness: with one reported update named `"questions"` (no file content
changed), the sync re-downloads the quiz content. -/
theorem sync_prefetch_download_decision_witness :
    (performSyncQuiz sampleEnvWithUpdates sampleStore).effects.downloads = 1 := by
  have h := (sync_prefetch_download_decision sampleEnvWithUpdates sampleStore
    sampleAttempt ⟨7, .inProgress⟩ (by decide) rfl (by decide) rfl (by decide)).1
  exact h.mpr ⟨["questions"], rfl, by decide, by decide⟩

/-- C9 counterexample to the claim as stated: the update entry `"a\nfiles"`
has a name ending in `"files"`, yet the sync that transmitted data still
re-downloads automatically, because the JS pattern `^.*files$` does not match
a name containing a newline. -/
theorem prefetch_newline_files_counterexample :
    (∃ name, sampleEnvNewlineFiles.moduleUpdates = some ["a\nfiles"]
        ∧ name ∈ ["a\nfiles"] ∧ endsWithFiles name = true)
      ∧ (performSyncQuiz sampleEnvNewlineFiles sampleStore).effects.downloads = 1 := by
  constructor
  · exact ⟨"a\nfiles", rfl, by decide, by decide⟩
  · decide

end AddonModQuizSync

namespace AddonModQuizSync

/-- Rows kept by the deduplication are rows of the input. -/
theorem mem_of_mem_dedupByQuizAux {seen : List Nat}
    {l : List AddonModQuizAttemptDBRecord} {r : AddonModQuizAttemptDBRecord}
    (h : r ∈ dedupByQuizAux seen l) : r ∈ l := by
  induction l generalizing seen with
  | nil => cases h
  | cons hd tl ih =>
    simp only [dedupByQuizAux] at h
    split at h
    · exact List.mem_cons_of_mem _ (ih h)
    · rcases List.mem_cons.mp h with h1 | h1
      · exact h1 ▸ List.mem_cons_self _ _
      · exact List.mem_cons_of_mem _ (ih h1)

/-- A quiz identifier not yet treated that occurs among the rows still occurs
among the deduplicated rows. -/
theorem quizid_mem_dedupByQuizAux {seen : List Nat}
    {l : List AddonModQuizAttemptDBRecord} {q : Nat}
    (hq : q ∈ l.map (fun r => r.quizid)) (hs : q ∉ seen) :
    q ∈ (dedupByQuizAux seen l).map (fun r => r.quizid) := by
  induction l generalizing seen with
  | nil => simp at hq
  | cons hd tl ih =>
    simp only [List.map_cons, List.mem_cons] at hq
    simp only [dedupByQuizAux]
    split
    case isTrue hmem =>
      rcases hq with h1 | h1
      · exact absurd (h1 ▸ hmem) hs
      · exact ih h1 hs
    case isFalse hmem =>
      rcases hq with h1 | h1
      · simp [h1]
      · by_cases hq2 : q = hd.quizid
        · simp [hq2]
        · have hs' : q ∉ hd.quizid :: seen := by
            simp only [List.mem_cons, not_or]
            exact ⟨hq2, hs⟩
          simp only [List.map_cons, List.mem_cons]
          exact Or.inr (ih h1 hs')

/-- With distinct quiz identifiers, the context lookup used by the batch
returns exactly the context of the requested quiz. -/
theorem find?_ctx_eq {ctxs : List QuizContext} {c : QuizContext} {q : Nat}
    (hnd : (ctxs.map (fun c => c.quiz.id)).Nodup) (hc : c ∈ ctxs)
    (hq : c.quiz.id = q) :
    ctxs.find? (fun c' => c'.quiz.id == q) = some c := by
  induction ctxs with
  | nil => cases hc
  | cons hd tl ih =>
    rw [List.map_cons, List.nodup_cons] at hnd
    rcases List.mem_cons.mp hc with h1 | h1
    · subst h1
      simp [List.find?_cons, hq]
    · have hne : hd.quiz.id ≠ q := by
        intro he
        apply hnd.1
        rw [he]
        exact List.mem_map.mpr ⟨c, h1, hq⟩
      have hbe : (hd.quiz.id == q) = false := by simpa using hne
      rw [List.find?_cons, hbe]
      exact ih hnd.2 h1

/-- Bridge between the batch's row iteration and the per-quiz contexts: a
value contributed to any component of the batch outcome is exactly a value
contributed by the closure of some quiz that has an offline attempt. -/
theorem mem_batchStep_flatMap_iff {β : Type}
    (g : List (Nat × List String) × List AutoSyncEvent × List SyncError → List β)
    (force : Bool) (ctxs : List QuizContext) (x : β)
    (hwf : ∀ c ∈ ctxs, ∀ a ∈ c.store.attempts, a.quizid = c.quiz.id)
    (hnd : (ctxs.map (fun c => c.quiz.id)).Nodup) :
    (x ∈ (dedupByQuiz (ctxs.flatMap (fun c => c.store.attempts))).flatMap
        (fun r => g (batchStep force ctxs r)))
      ↔ ∃ c ∈ ctxs, c.store.attempts ≠ [] ∧ x ∈ g (ctxStep force c) := by
  constructor
  · intro h
    obtain ⟨r, hr, hx⟩ := List.mem_flatMap.mp h
    have hrall : r ∈ ctxs.flatMap (fun c => c.store.attempts) :=
      mem_of_mem_dedupByQuizAux hr
    obtain ⟨c', hc', hrc'⟩ := List.mem_flatMap.mp hrall
    have hqid : r.quizid = c'.quiz.id := hwf c' hc' r hrc'
    have hfind : ctxs.find? (fun c => c.quiz.id == r.quizid) = some c' :=
      find?_ctx_eq hnd hc' hqid.symm
    rw [batchStep, hfind] at hx
    exact ⟨c', hc', List.ne_nil_of_mem hrc', hx⟩
  · rintro ⟨c, hc, hne, hx⟩
    obtain ⟨a, ha⟩ := List.exists_mem_of_ne_nil c.store.attempts hne
    have haq : a.quizid = c.quiz.id := hwf c hc a ha
    have haall : a ∈ ctxs.flatMap (fun c => c.store.attempts) :=
      List.mem_flatMap.mpr ⟨c, hc, ha⟩
    have hqmem : c.quiz.id ∈ (ctxs.flatMap (fun c => c.store.attempts)).map
        (fun r => r.quizid) :=
      List.mem_map.mpr ⟨a, haall, haq⟩
    have hqded := @quizid_mem_dedupByQuizAux [] _ _ hqmem (by simp)
    obtain ⟨r, hrded, hrq⟩ := List.mem_map.mp hqded
    have hfind : ctxs.find? (fun c' => c'.quiz.id == r.quizid) = some c :=
      find?_ctx_eq hnd hc hrq.symm
    refine List.mem_flatMap.mpr ⟨r, hrded, ?_⟩
    rw [batchStep, hfind]
    exact hx

end AddonModQuizSync

namespace AddonModQuizSync

/-- With the lock free, the per-quiz entry runs the reconciliation. -/
theorem syncQuizRun_not_blocked (c : QuizContext) (h : c.blocked = false) :
    syncQuizRun c = performSyncQuiz c.env c.store := by
  simp [syncQuizRun, h]

/-- With an empty offline store the reconciliation resolves with no warnings
and no update. -/
theorem performSyncQuiz_empty_attempts (env : SyncEnv) (st : OfflineStore)
    (h : st.attempts = []) :
    (performSyncQuiz env st).result = .ok ⟨[], false, false⟩ := by
  have hl : st.attempts.getLast? = none := by rw [h]; rfl
  rw [performSyncQuiz_none env st hl]
  rfl

/-- Whenever an offline attempt exists and the reconciliation resolves, the
result reports an update (every resolving branch either removes the offline
attempt or sends data). -/
theorem performSyncQuiz_ok_updated (env : SyncEnv) (st : OfflineStore)
    (res : AddonModQuizSyncResult) (hne : st.attempts ≠ [])
    (hok : (performSyncQuiz env st).result = .ok res) :
    res.updated = true := by
  obtain ⟨oa, hlast⟩ : ∃ oa, st.attempts.getLast? = some oa := by
    cases hgl : st.attempts.getLast? with
    | some a => exact ⟨a, rfl⟩
    | none => exact absurd (List.getLast?_eq_none_iff.mp hgl) hne
  cases hnet : env.isOnline with
  | false =>
    rw [performSyncQuiz_offline env st oa hlast hnet] at hok
    cases hok
  | true =>
    cases hfind : env.onlineAttempts.find? (fun a => a.id == oa.id) with
    | none =>
      rw [performSyncQuiz_noMatch env st oa hlast hnet hfind] at hok
      simp only [okOutcome, Except.ok.injEq] at hok
      rw [← hok, finishSync_updated]; rfl
    | some onA =>
      cases hfin : isAttemptFinished onA.state with
      | true =>
        rw [performSyncQuiz_finishedOnline env st oa onA hlast hnet hfind hfin] at hok
        simp only [okOutcome, Except.ok.injEq] at hok
        rw [← hok, finishSync_updated]; rfl
      | false =>
        cases hans : (st.answers oa.id).isEmpty with
        | true =>
          rw [performSyncQuiz_emptyAnswers env st oa onA hlast hnet hfind hfin hans] at hok
          simp only [okOutcome, Except.ok.injEq] at hok
          rw [← hok, finishSync_updated]; rfl
        | false =>
          rw [performSyncQuiz_submit env st oa onA hlast hnet hfind hfin hans] at hok
          simp only [submitAnswersBranch, okOutcome, Except.ok.injEq] at hok
          rw [← hok, finishSync_updated]; rfl

/-- Events contributed by one quiz's closure: exactly one event, emitted when
the quiz is not blocked, its sync ran (forced or needed) and resolved. -/
theorem mem_ctxStep_events (force : Bool) (c : QuizContext) (ev : AutoSyncEvent) :
    ev ∈ (ctxStep force c).2.1
      ↔ c.blocked = false ∧ (force = true ∨ c.needed = true)
          ∧ ∃ res, (syncQuizRun c).result = .ok res
              ∧ ev = ⟨c.quiz.id, res.attemptFinished, res.warnings⟩ := by
  cases hb : c.blocked with
  | true => simp [ctxStep, hb]
  | false =>
    cases force with
    | true =>
      cases hres : (syncQuizRun c).result with
      | error e =>
        simp [ctxStep, hb, hres]
      | ok data =>
        simp only [ctxStep, hb, if_false, if_true, hres, Bool.false_eq_true,
          List.mem_singleton, true_and]
        constructor
        · intro h
          exact ⟨Or.inl trivial, data, rfl, h⟩
        · rintro ⟨_, res, hres2, hev⟩
          rw [Except.ok.injEq] at hres2
          rw [← hres2] at hev
          exact hev
    | false =>
      cases hn : c.needed with
      | false => simp [ctxStep, hb, hn]
      | true =>
        cases hres : (syncQuizRun c).result with
        | error e =>
          simp [ctxStep, hb, hn, hres]
        | ok data =>
          simp only [ctxStep, hb, hn, if_false, if_true, hres, Bool.false_eq_true,
            List.mem_singleton, true_and]
          constructor
          · intro h
            exact ⟨Or.inr trivial, data, rfl, h⟩
          · rintro ⟨_, res, hres2, hev⟩
            rw [Except.ok.injEq] at hres2
            rw [← hres2] at hev
            exact hev

/-- Persisted warnings contributed by one quiz's closure: the sync resolved
with a non-empty warning list. -/
theorem mem_ctxStep_warnings (force : Bool) (c : QuizContext)
    (x : Nat × List String) :
    x ∈ (ctxStep force c).1
      ↔ c.blocked = false ∧ (force = true ∨ c.needed = true)
          ∧ ∃ res, (syncQuizRun c).result = .ok res
              ∧ res.warnings.isEmpty = false ∧ x = (c.quiz.id, res.warnings) := by
  cases hb : c.blocked with
  | true => simp [ctxStep, hb]
  | false =>
    cases force with
    | true =>
      cases hres : (syncQuizRun c).result with
      | error e =>
        simp [ctxStep, hb, hres]
      | ok data =>
        cases hw : data.warnings.isEmpty with
        | true =>
          simp only [ctxStep, hb, if_false, if_true, hres, hw, Bool.false_eq_true]
          simp only [List.not_mem_nil, false_iff, not_and]
          rintro _ _ ⟨res, hres2, hne, hx⟩
          rw [Except.ok.injEq] at hres2
          rw [← hres2] at hne
          rw [hw] at hne
          cases hne
        | false =>
          simp only [ctxStep, hb, if_false, if_true, hres, hw, Bool.false_eq_true,
            List.mem_singleton, true_and]
          constructor
          · intro h
            exact ⟨Or.inl trivial, data, rfl, hw, h⟩
          · rintro ⟨_, res, hres2, _, hx⟩
            rw [Except.ok.injEq] at hres2
            rw [← hres2] at hx
            exact hx
    | false =>
      cases hn : c.needed with
      | false => simp [ctxStep, hb, hn]
      | true =>
        cases hres : (syncQuizRun c).result with
        | error e =>
          simp [ctxStep, hb, hn, hres]
        | ok data =>
          cases hw : data.warnings.isEmpty with
          | true =>
            simp only [ctxStep, hb, hn, if_false, if_true, hres, hw, Bool.false_eq_true]
            simp only [List.not_mem_nil, false_iff, not_and]
            rintro _ _ ⟨res, hres2, hne, hx⟩
            rw [Except.ok.injEq] at hres2
            rw [← hres2] at hne
            rw [hw] at hne
            cases hne
          | false =>
            simp only [ctxStep, hb, hn, if_false, if_true, hres, hw, Bool.false_eq_true,
              List.mem_singleton, true_and]
            constructor
            · intro h
              exact ⟨Or.inr trivial, data, rfl, hw, h⟩
            · rintro ⟨_, res, hres2, _, hx⟩
              rw [Except.ok.injEq] at hres2
              rw [← hres2] at hx
              exact hx

/-- Failures contributed by one quiz's closure: the sync ran and rejected. -/
theorem mem_ctxStep_failures (force : Bool) (c : QuizContext) (e : SyncError) :
    e ∈ (ctxStep force c).2.2
      ↔ c.blocked = false ∧ (force = true ∨ c.needed = true)
          ∧ (syncQuizRun c).result = .error e := by
  cases hb : c.blocked with
  | true => simp [ctxStep, hb]
  | false =>
    cases force with
    | true =>
      cases hres : (syncQuizRun c).result with
      | error e' =>
        simp only [ctxStep, hb, if_false, if_true, hres, Bool.false_eq_true,
          List.mem_singleton, true_and]
        constructor
        · intro h
          subst h
          exact ⟨Or.inl trivial, rfl⟩
        · rintro ⟨_, herr⟩
          rw [Except.error.injEq] at herr
          exact herr.symm
      | ok data =>
        simp [ctxStep, hb, hres]
    | false =>
      cases hn : c.needed with
      | false => simp [ctxStep, hb, hn]
      | true =>
        cases hres : (syncQuizRun c).result with
        | error e' =>
          simp only [ctxStep, hb, hn, if_false, if_true, hres, Bool.false_eq_true,
            List.mem_singleton, true_and]
          constructor
          · intro h
            subst h
            exact ⟨Or.inr trivial, rfl⟩
          · rintro ⟨_, herr⟩
            rw [Except.error.injEq] at herr
            exact herr.symm
        | ok data =>
          simp [ctxStep, hb, hn, hres]

end AddonModQuizSync

namespace AddonModQuizSync

/-- C7: in the batch, the `AUTO_SYNCED` event for a quiz (carrying the quiz
identifier, the finished flag and the warnings) is emitted iff that quiz's
sync ran to successful completion — and every such sync changed state
(`updated = true`), so no event belongs to a sync that made no change. -/
theorem batch_event_iff (force : Bool) (ctxs : List QuizContext)
    (hwf : ∀ c ∈ ctxs, ∀ a ∈ c.store.attempts, a.quizid = c.quiz.id)
    (hnd : (ctxs.map (fun c => c.quiz.id)).Nodup) (ev : AutoSyncEvent) :
    ev ∈ (syncAllQuizzesFunc force ctxs).events
      ↔ ∃ c ∈ ctxs, c.blocked = false ∧ (force = true ∨ c.needed = true)
          ∧ ∃ res, (performSyncQuiz c.env c.store).result = .ok res
              ∧ res.updated = true
              ∧ ev = ⟨c.quiz.id, res.attemptFinished, res.warnings⟩ := by
  have hbr := mem_batchStep_flatMap_iff (fun t => t.2.1) force ctxs ev hwf hnd
  constructor
  · intro h
    obtain ⟨c, hc, hne, hx⟩ := hbr.mp h
    rw [mem_ctxStep_events] at hx
    obtain ⟨hb, hran, res, hok, hev⟩ := hx
    rw [syncQuizRun_not_blocked c hb] at hok
    exact ⟨c, hc, hb, hran, res, hok,
      performSyncQuiz_ok_updated c.env c.store res hne hok, hev⟩
  · rintro ⟨c, hc, hb, hran, res, hok, hupd, hev⟩
    have hne : c.store.attempts ≠ [] := by
      intro hnil
      rw [performSyncQuiz_empty_attempts c.env c.store hnil, Except.ok.injEq] at hok
      rw [← hok] at hupd
      simp at hupd
    refine hbr.mpr ⟨c, hc, hne, ?_⟩
    rw [mem_ctxStep_events]
    refine ⟨hb, hran, res, ?_, hev⟩
    rw [syncQuizRun_not_blocked c hb]
    exact hok

/-- C7 witness: in a batch over quizzes 3 (failing) and 4 (succeeding with a
discard warning), the event for quiz 4 is emitted. -/
theorem batch_event_iff_witness :
    (⟨4, false, [warningAttemptFinished]⟩ : AutoSyncEvent)
      ∈ (syncAllQuizzesFunc true [ctxFail, ctxOk]).events := by
  have hwf : ∀ c ∈ [ctxFail, ctxOk], ∀ a ∈ c.store.attempts, a.quizid = c.quiz.id := by
    intro c hc
    rcases List.mem_cons.mp hc with h | h
    · subst h
      decide
    · rcases List.mem_cons.mp h with h2 | h2
      · subst h2
        decide
      · simp at h2
  have hnd : (([ctxFail, ctxOk]).map (fun c => c.quiz.id)).Nodup := by decide
  exact (batch_event_iff true [ctxFail, ctxOk] hwf hnd
      ⟨4, false, [warningAttemptFinished]⟩).mpr
    ⟨ctxOk, by simp, rfl, Or.inl rfl, ⟨[warningAttemptFinished], false, true⟩,
      rfl, rfl, rfl⟩

end AddonModQuizSync

namespace AddonModQuizSync

/-- C6 counterexample to the claim as stated: with quiz 3 failing ("cannot
connect") and quiz 4 succeeding, quiz 4 is still processed — its warning is
persisted and its event emitted — but the batch promise REJECTS with the
per-quiz error instead of resolving: the failure is not caught at the batch
level. -/
theorem batch_failure_counterexample :
    batchResult (syncAllQuizzesFunc true [ctxFail, ctxOk])
        = .error .cannotConnect
      ∧ (syncAllQuizzesFunc true [ctxFail, ctxOk]).persistedWarnings
        = [(4, [warningAttemptFinished])]
      ∧ (syncAllQuizzesFunc true [ctxFail, ctxOk]).events
        = [⟨4, false, [warningAttemptFinished]⟩] :=
  ⟨rfl, rfl, rfl⟩

/-- C6 (amended): a failure while syncing one quiz does not prevent the other
quizzes from being processed — each non-blocked quiz with pending work whose
sync resolves still gets its non-empty warnings persisted and its event
emitted, independently of the other quizzes — but the batch is not shielded
from per-quiz failures: its promise resolves exactly when no processed
quiz's sync rejected. -/
theorem batch_failure_isolation (force : Bool) (ctxs : List QuizContext)
    (hwf : ∀ c ∈ ctxs, ∀ a ∈ c.store.attempts, a.quizid = c.quiz.id)
    (hnd : (ctxs.map (fun c => c.quiz.id)).Nodup) :
    (∀ c ∈ ctxs, c.blocked = false → (force = true ∨ c.needed = true) →
        ∀ res, (performSyncQuiz c.env c.store).result = .ok res →
          res.warnings.isEmpty = false →
          (c.quiz.id, res.warnings) ∈ (syncAllQuizzesFunc force ctxs).persistedWarnings
            ∧ (⟨c.quiz.id, res.attemptFinished, res.warnings⟩ : AutoSyncEvent)
                ∈ (syncAllQuizzesFunc force ctxs).events)
      ∧ (batchResult (syncAllQuizzesFunc force ctxs) = .ok ()
          ↔ ∀ e, ¬ ∃ c ∈ ctxs, c.store.attempts ≠ [] ∧ c.blocked = false
              ∧ (force = true ∨ c.needed = true)
              ∧ (performSyncQuiz c.env c.store).result = .error e) := by
  have hfail : ∀ e, e ∈ (syncAllQuizzesFunc force ctxs).failures
      ↔ ∃ c ∈ ctxs, c.store.attempts ≠ [] ∧ c.blocked = false
          ∧ (force = true ∨ c.needed = true)
          ∧ (performSyncQuiz c.env c.store).result = .error e := by
    intro e
    have hbr := mem_batchStep_flatMap_iff (fun t => t.2.2) force ctxs e hwf hnd
    constructor
    · intro h
      obtain ⟨c, hc, hne, hx⟩ := hbr.mp h
      rw [mem_ctxStep_failures] at hx
      obtain ⟨hb, hran, herr⟩ := hx
      rw [syncQuizRun_not_blocked c hb] at herr
      exact ⟨c, hc, hne, hb, hran, herr⟩
    · rintro ⟨c, hc, hne, hb, hran, herr⟩
      refine hbr.mpr ⟨c, hc, hne, ?_⟩
      rw [mem_ctxStep_failures]
      refine ⟨hb, hran, ?_⟩
      rw [syncQuizRun_not_blocked c hb]
      exact herr
  constructor
  · intro c hc hb hran res hok hw
    have hne : c.store.attempts ≠ [] := by
      intro hnil
      rw [performSyncQuiz_empty_attempts c.env c.store hnil, Except.ok.injEq] at hok
      rw [← hok] at hw
      simp at hw
    constructor
    · refine (mem_batchStep_flatMap_iff (fun t => t.1) force ctxs
        (c.quiz.id, res.warnings) hwf hnd).mpr ⟨c, hc, hne, ?_⟩
      rw [mem_ctxStep_warnings]
      refine ⟨hb, hran, res, ?_, hw, rfl⟩
      rw [syncQuizRun_not_blocked c hb]
      exact hok
    · refine (mem_batchStep_flatMap_iff (fun t => t.2.1) force ctxs
        ⟨c.quiz.id, res.attemptFinished, res.warnings⟩ hwf hnd).mpr ⟨c, hc, hne, ?_⟩
      rw [mem_ctxStep_events]
      refine ⟨hb, hran, res, ?_, rfl⟩
      rw [syncQuizRun_not_blocked c hb]
      exact hok
  · constructor
    · intro hok e hex
      have hmem : e ∈ (syncAllQuizzesFunc force ctxs).failures := (hfail e).mpr hex
      cases hfl : (syncAllQuizzesFunc force ctxs).failures with
      | nil =>
        rw [hfl] at hmem
        cases hmem
      | cons e' tl =>
        rw [batchResult, hfl] at hok
        cases hok
    · intro hall
      have hnil : (syncAllQuizzesFunc force ctxs).failures = [] := by
        rw [List.eq_nil_iff_forall_not_mem]
        intro e he
        exact hall e ((hfail e).mp he)
      rw [batchResult, hnil]

/-- C6 witness for the amended claim: in the batch over failing quiz 3 and
succeeding quiz 4, the warning of quiz 4 is persisted despite quiz 3's
failure, and the batch promise does not resolve (quiz 3's error exists). -/
theorem batch_failure_isolation_witness :
    (4, [warningAttemptFinished])
        ∈ (syncAllQuizzesFunc true [ctxFail, ctxOk]).persistedWarnings
      ∧ batchResult (syncAllQuizzesFunc true [ctxFail, ctxOk]) ≠ .ok () := by
  have hwf : ∀ c ∈ [ctxFail, ctxOk], ∀ a ∈ c.store.attempts, a.quizid = c.quiz.id := by
    intro c hc
    rcases List.mem_cons.mp hc with h | h
    · subst h
      decide
    · rcases List.mem_cons.mp h with h2 | h2
      · subst h2
        decide
      · simp at h2
  have hnd : (([ctxFail, ctxOk]).map (fun c => c.quiz.id)).Nodup := by decide
  have h := batch_failure_isolation true [ctxFail, ctxOk] hwf hnd
  constructor
  · exact (h.1 ctxOk (by simp) rfl (Or.inl rfl)
      ⟨[warningAttemptFinished], false, true⟩ rfl rfl).1
  · intro hc
    have := h.2.mp hc SyncError.cannotConnect
    exact this ⟨ctxFail, by simp, by decide, rfl, Or.inl rfl, rfl⟩

end AddonModQuizSync
